import Mathlib

/-!
Verification of the speech-translation model class `EncDecTransfModelBPE`
(`nemo/collections/asr/models/transformer_bpe_models.py`).

Tensors are modelled as (nested) lists, Python floats as exact rationals
(the claims under study concern the arithmetic structure of the computations,
not floating-point rounding), and external collaborators (tokenizer,
preprocessor, encoder, beam search, sacrebleu, the distributed all-gather)
as function parameters, exactly as the module's own code treats them as
opaque callables.
-/

namespace NeMoTransformerBPE

/-- Embedding of `lens_to_mask(lens, max_length)`:
`torch.arange(max_length).repeat(batch_size, 1) < lens[:, None]`.
Row `i` is the boolean vector `[t < lens[i] for t in range(max_length)]`. -/
def lens_to_mask (lens : List Nat) (max_length : Nat) : List (List Bool) :=
  lens.map (fun l => (List.range max_length).map (fun t => decide (t < l)))

/-- One step of the right fold implementing Python `str.split()`:
accumulates the current word and the finished words. -/
def pySplitStep (c : Char) (acc : List Char × List (List Char)) :
    List Char × List (List Char) :=
  if c.isWhitespace then
    if acc.1 = [] then ([], acc.2) else ([], acc.1 :: acc.2)
  else (c :: acc.1, acc.2)

/-- Python `str.split()` with no separator: the maximal runs of
non-whitespace characters, in order; leading, trailing and repeated
whitespace contributes nothing. -/
def pySplit (s : String) : List String :=
  (match s.data.foldr pySplitStep ([], []) with
   | ([], ws) => ws
   | (w, ws) => w :: ws).map String.mk

/-- Levenshtein edit distance, the semantics of `editdistance.eval`. -/
def editDist {α : Type} [DecidableEq α] : List α → List α → Nat
  | [], ys => ys.length
  | x :: xs, [] => (x :: xs).length
  | x :: xs, y :: ys =>
    if x = y then editDist xs ys
    else 1 + min (editDist xs (y :: ys)) (min (editDist (x :: xs) ys) (editDist xs ys))
termination_by a b => a.length + b.length

/-- Character-list semantics of `re.sub(r'<[^>]+>', '', text)`, the body of
`_strip_special_tokens`: scanning left to right, at a `'<'` the pattern
matches iff some later `'>'` exists (`dropWhile ≠ []`) with at least one
character strictly between (`takeWhile ≠ []`); the match runs to the first
such `'>'` and is deleted, and scanning resumes after it; otherwise the scan
advances one character. -/
def stripChars : List Char → List Char
  | [] => []
  | c :: cs =>
    if c = '<' then
      if (cs.dropWhile (fun x => x ≠ '>')) ≠ [] ∧ cs.takeWhile (fun x => x ≠ '>') ≠ [] then
        stripChars ((cs.dropWhile (fun x => x ≠ '>')).tail)
      else c :: stripChars cs
    else c :: stripChars cs
termination_by l => l.length
decreasing_by
  · have h1 : (cs.dropWhile (fun x => x ≠ '>')).length ≤ cs.length :=
      (List.dropWhile_sublist _).length_le
    simp only [List.length_tail, List.length_cons]
    omega
  · simp [Nat.lt_succ_self]
  · simp [Nat.lt_succ_self]

/-- Embedding of `_strip_special_tokens(text)`:
`re.sub(r'<[^>]+>', '', text)`. -/
def _strip_special_tokens (text : String) : String :=
  String.mk (stripChars text.data)

/-! ## Transcription orchestrator (`transcribe` / `translate`) -/

/-- `logging.WARNING`, the verbosity set inside `transcribe`. -/
def WARNING : Nat := 30

/-- The mutable model attributes that `transcribe` saves, mutates and restores:
`self.training`, `self.preprocessor.featurizer.dither`,
`self.preprocessor.featurizer.pad_to`, the freeze state of `self.encoder` and
`self.transf_decoder`, and the logging verbosity. -/
structure ModelState where
  training : Bool
  dither : ℚ
  pad_to : Nat
  encoder_frozen : Bool
  decoder_frozen : Bool
  verbosity : Nat
deriving DecidableEq, Repr

/-- The value `transcribe` returns: the early-exit empty dict `{}`
(for a `None` or empty path list) or the list of hypothesis texts. -/
inductive TranscribeOutput where
  | emptyDict
  | texts (hypotheses : List String)
deriving DecidableEq, Repr

/-- The NameError message for the dead `return_hypotheses` branch inside
the transcription loop, which reads the undefined name `logits`. -/
def logitsNameErrorMsg : String := ("name logits is not defined")

/-- The `for test_batch in temporary_datalayer` loop of `transcribe`.
Each batch is modelled by the outcome of its external processing
(forward + beam search + `tokenizer.ids_to_text`): either the list of
detokenized beam hypotheses for the batch, or an exception raised while
processing it.  Successful batch outputs are appended in order
(`hypotheses += beam_hypotheses`); the first exception aborts the loop.
When `return_hypotheses` is true the loop body reads the undefined name
`logits`, raising a NameError on the first batch. -/
def runBatches (return_hypotheses : Bool) :
    List (Except String (List String)) → Except String (List String)
  | [] => Except.ok []
  | b :: bs =>
    match b with
    | Except.error e => Except.error e
    | Except.ok texts =>
      if return_hypotheses then Except.error logitsNameErrorMsg
      else
        match runBatches return_hypotheses bs with
        | Except.error e => Except.error e
        | Except.ok rest => Except.ok (texts ++ rest)

/-- The ValueError raised by `transcribe` when both flags are set. -/
def flagsMutexMsg : String :=
  ("Either return_hypotheses or logprobs can be True at any given time." ++
   "Returned hypotheses will contain the logprobs.")

/-- Embedding of `EncDecTransfModelBPE.transcribe`.

`batches paths batch_size` models the temporary manifest-backed dataloader
together with the per-batch external processing (see `runBatches`); `m` is
the model state at call time.  Returns the model state after the call and
the call's outcome (normal return or propagated exception).  The body
mirrors the source exactly: the early `{}` return for `None`/empty paths,
the mutually-exclusive-flags ValueError, then a `try` block that zeroes
`dither`/`pad_to`, switches to eval mode, freezes encoder and decoder and
lowers verbosity, and a `finally` block that restores `training`, `dither`,
`pad_to` and verbosity, but unfreezes the encoder/decoder only when the
saved mode was training. -/
def transcribe (batches : List String → Nat → List (Except String (List String)))
    (m : ModelState) (paths2audio_files : Option (List String))
    (batch_size : Nat) (logprobs : Bool) (return_hypotheses : Bool) :
    ModelState × Except String TranscribeOutput :=
  match paths2audio_files with
  | none => (m, Except.ok TranscribeOutput.emptyDict)
  | some paths =>
    if paths.length = 0 then (m, Except.ok TranscribeOutput.emptyDict)
    else if return_hypotheses && logprobs then (m, Except.error flagsMutexMsg)
    else
      let mode := m.training
      let dither_value := m.dither
      let pad_to_value := m.pad_to
      let logging_level := m.verbosity
      let inner : ModelState :=
        { training := false
          dither := 0
          pad_to := 0
          encoder_frozen := true
          decoder_frozen := true
          verbosity := WARNING }
      let result := runBatches return_hypotheses (batches paths batch_size)
      let mfinal : ModelState :=
        { training := mode
          dither := dither_value
          pad_to := pad_to_value
          encoder_frozen := if mode then false else inner.encoder_frozen
          decoder_frozen := if mode then false else inner.decoder_frozen
          verbosity := logging_level }
      (mfinal, Except.map TranscribeOutput.texts result)

/-- Embedding of `translate`, which delegates to `transcribe` unchanged. -/
def translate (batches : List String → Nat → List (Except String (List String)))
    (m : ModelState) (paths2audio_files : Option (List String))
    (batch_size : Nat) (logprobs : Bool) (return_hypotheses : Bool) :
    ModelState × Except String TranscribeOutput :=
  transcribe batches m paths2audio_files batch_size logprobs return_hypotheses

/-! ## Forward pass -/

/-- The ValueError raised by `forward` on mutually exclusive signals. -/
def forwardMutexMsg : String :=
  ("Arguments input_signal and input_signal_length are mutually exclusive" ++
   " with processed_signal and processed_signal_len arguments.")

/-- Embedding of the control flow of `EncDecTransfModelBPE.forward` around its
argument guard.  `preprocess` models `self.preprocessor` and `pipeline`
everything downstream of it (augmentation, encoder, adapter, optional
transformer encoder, decoder and head); both are opaque collaborators.
The guard is the source's
`has_input_signal = input_signal is not None and input_signal_length is not None`,
`has_processed_signal = ...`, `if (has_input_signal ^ has_processed_signal) == False: raise ValueError(...)`,
followed by `if not has_processed_signal: processed_signal, ... = self.preprocessor(...)`. -/
def forward {σ π ρ : Type} (preprocess : σ × Nat → π × Nat) (pipeline : π × Nat → ρ)
    (input_signal : Option σ) (input_signal_length : Option Nat)
    (processed_signal : Option π) (processed_signal_length : Option Nat) :
    Except String ρ :=
  let has_input_signal := input_signal.isSome && input_signal_length.isSome
  let has_processed_signal := processed_signal.isSome && processed_signal_length.isSome
  if (has_input_signal.xor has_processed_signal) = false then
    Except.error forwardMutexMsg
  else
    let processed : Option (π × Nat) :=
      if has_processed_signal then
        match processed_signal, processed_signal_length with
        | some p, some pl => some (p, pl)
        | _, _ => none
      else
        match input_signal, input_signal_length with
        | some s, some sl => some (preprocess (s, sl))
        | _, _ => none
    match processed with
    | some pr => Except.ok (pipeline pr)
    | none => Except.error ("unreachable")

/-! ## Teacher-forcing loss (training and validation) -/

/-- Embedding of `compute_audio_loss`.  `forwardFn` models
`self.forward(input_signal, input_signal_length, transcript, transcript_length)`
returning the log-probabilities, `transf_loss` models `self.transf_loss`.
The slicing is the source's
`input_ids, labels = transcript[:, :-1], transcript[:, 1:]`
applied row-wise to the padded transcript tensor. -/
def compute_audio_loss {α LP : Type}
    (forwardFn : List (List ℚ) → List Nat → List (List α) → List Nat → LP)
    (transf_loss : LP → List (List α) → ℚ)
    (batch : Option (List (List ℚ) × List Nat × List (List α) × List Nat)) : ℚ :=
  match batch with
  | none => 0
  | some (signal, signal_len, transcript, transcript_len) =>
    let input_ids := transcript.map List.dropLast
    let labels := transcript.map (List.drop 1)
    transf_loss (forwardFn signal signal_len input_ids transcript_len) labels

/-- The same slicing and loss call as performed by `validation_step`
(`input_ids, labels = transcript[:, :-1], transcript[:, 1:]` then
`transf_loss = self.transf_loss(log_probs=transf_log_probs, labels=labels)`). -/
def validation_step_loss {α LP : Type}
    (forwardFn : List (List ℚ) → List Nat → List (List α) → List Nat → LP)
    (transf_loss : LP → List (List α) → ℚ)
    (batch : List (List ℚ) × List Nat × List (List α) × List Nat) : ℚ :=
  let (signal, signal_len, transcript, transcript_len) := batch
  let input_ids := transcript.map List.dropLast
  let labels := transcript.map (List.drop 1)
  transf_loss (forwardFn signal signal_len input_ids transcript_len) labels

/-! ## Validation / test epoch-end metric aggregation -/

/-- Python `str.strip()`: remove leading and trailing whitespace. -/
def pyStrip (s : String) : String :=
  String.mk (((s.data.dropWhile Char.isWhitespace).reverse.dropWhile
    Char.isWhitespace).reverse)

/-- The per-worker pair filtering of `multi_validation_epoch_end`:
`[(t, g) for (t, g) in zip(translations, ground_truths) if g.strip() != '']`. -/
def filteredPairs (translations ground_truths : List String) : List (String × String) :=
  (translations.zip ground_truths).filter (fun p => pyStrip p.2 ≠ "")

/-- The `tr_and_gt` list after the gather step of `multi_validation_epoch_end`:
with more than one worker, `dist.all_gather_object` fills slot `rank` with
rank `rank`'s filtered pair list (here `workers` holds each rank's
(`translations`, `ground_truths`) in rank order, one entry per rank); with one
worker the `[None] * world_size` list gets slot 0 replaced by the local
filtered pairs and the collective call is skipped. -/
def gatheredPairs (world_size : Nat) (workers : List (List String × List String)) :
    List (List (String × String)) :=
  if world_size > 1 then
    workers.map (fun w => filteredPairs w.1 w.2)
  else
    (List.replicate world_size ([] : List (String × String))).set 0
      (filteredPairs (workers.headD ([], [])).1 (workers.headD ([], [])).2)

/-- Embedding of the metric computation of `multi_validation_epoch_end` for
one dataloader: the gather, the rank-0 concatenation loop over
`range(world_size)`, `corpus_bleu(...).score * world_size`, and
`wer_score = 1.0 * wer_scores * world_size / wer_words` where `wer_words`
sums reference word counts and `wer_scores` sums
`editdistance.eval(h.split(), r.split())`.  `corpus_bleu` is the external
sacrebleu scorer.  Returns `(sb_score, wer_score)`; non-zero ranks return
`(0, 0)`. -/
def multi_validation_epoch_end (world_size global_rank : Nat)
    (workers : List (List String × List String))
    (corpus_bleu : List String → List String → ℚ) : ℚ × ℚ :=
  let tr_and_gt := gatheredPairs world_size workers
  if global_rank = 0 then
    let _translations := (tr_and_gt.map (fun pairs => pairs.map Prod.fst)).flatten
    let _ground_truths := (tr_and_gt.map (fun pairs => pairs.map Prod.snd)).flatten
    let sb_score : ℚ := corpus_bleu _translations _ground_truths * (world_size : ℚ)
    let wer_words : Nat := (_ground_truths.map (fun r => (pySplit r).length)).sum
    let wer_scores : Nat :=
      ((_translations.zip _ground_truths).map
        (fun p => editDist (pySplit p.1) (pySplit p.2))).sum
    let wer_score : ℚ := 1 * (wer_scores : ℚ) * (world_size : ℚ) / (wer_words : ℚ)
    (sb_score, wer_score)
  else (0, 0)

/-! ## Decoder vocabulary size -/

/-- Embedding of `vocab_size = 8 * ceil(self.tokenizer.vocab_size / 8)`
from `EncDecTransfModelBPE.__init__` (Python true division and `math.ceil`). -/
def decoder_vocab_size (tokenizer_vocab_size : Nat) : Nat :=
  8 * Nat.ceil ((tokenizer_vocab_size : ℚ) / 8)

/-! ## Theorems -/

example : editDist ["a", "b"] ["a", "c"] = 1 := by simp [editDist]

/-- Edit distance of a word list with itself is zero (so the corpus WER of a
prediction against itself is zero). -/
theorem editDist_self {α : Type} [DecidableEq α] (xs : List α) : editDist xs xs = 0 := by
  induction xs with
  | nil => simp [editDist]
  | cons x xs ih => simp [editDist, ih]

example : pySplit ("hello  world ") = ["hello", "world"] := by decide

example : pySplit ("") = [] := by decide

example : pyStrip ("  a b ") = "a b" := by decide

example : pyStrip ("  ") = "" := by decide

theorem stripChars_cons_eq (c : Char) (cs : List Char) :
    stripChars (c :: cs) =
      if c = '<' then
        if (cs.dropWhile (fun x => x ≠ '>')) ≠ [] ∧ cs.takeWhile (fun x => x ≠ '>') ≠ [] then
          stripChars ((cs.dropWhile (fun x => x ≠ '>')).tail)
        else c :: stripChars cs
      else c :: stripChars cs := by
  rw [stripChars]

theorem stripChars_sublist (l : List Char) : List.Sublist (stripChars l) l := by
  induction l using stripChars.induct with
  | case1 => simp [stripChars]
  | case2 cs h ih =>
    rw [stripChars_cons_eq, if_pos rfl, if_pos h]
    exact (ih.trans ((List.tail_sublist _).trans (List.dropWhile_sublist _))).trans
      (List.sublist_cons_self _ _)
  | case3 cs h ih =>
    rw [stripChars_cons_eq, if_pos rfl, if_neg h]
    exact ih.cons₂ _
  | case4 c cs h ih =>
    rw [stripChars_cons_eq, if_neg h]
    exact ih.cons₂ _

/-- The output of one strip pass contains no match of the pattern, so a second
pass is the identity: the raw idempotence statement at character-list level. -/
theorem stripChars_idem (l : List Char) : stripChars (stripChars l) = stripChars l := by
  induction l using stripChars.induct with
  | case1 => simp [stripChars]
  | case2 cs h ih =>
    rw [stripChars_cons_eq, if_pos rfl, if_pos h]
    exact ih
  | case3 cs h ih =>
    rw [stripChars_cons_eq, if_pos rfl, if_neg h]
    rw [stripChars_cons_eq, if_pos rfl]
    have hcond2 : ¬((stripChars cs).dropWhile (fun x => x ≠ '>') ≠ [] ∧
        (stripChars cs).takeWhile (fun x => x ≠ '>') ≠ []) := by
      rcases not_and_or.mp h with hd | ht
      · rw [not_not] at hd
        intro hc
        apply hc.1
        rw [List.dropWhile_eq_nil_iff] at hd ⊢
        intro x hx
        exact hd x ((stripChars_sublist cs).subset hx)
      · rw [not_not] at ht
        match cs with
        | [] => intro hc; exact hc.1 (by simp [stripChars])
        | x :: cs' =>
          have hx : ¬(x ≠ '>') := by
            intro hxp
            simp [List.takeWhile_cons, hxp] at ht
          rw [not_not] at hx
          subst hx
          intro hc
          apply hc.2
          rw [stripChars_cons_eq, if_neg (by decide)]
          simp [List.takeWhile_cons]
    rw [if_neg hcond2, ih]
  | case4 c cs h ih =>
    rw [stripChars_cons_eq, if_neg h]
    rw [stripChars_cons_eq, if_neg h, ih]


/-- Rows of `lens_to_mask` have `min l T` true entries. -/
theorem count_true_range (T l : Nat) :
    ((List.range T).map (fun t => decide (t < l))).count true = min l T := by
  induction T with
  | zero => simp
  | succ T ih =>
    rw [List.range_succ, List.map_append, List.count_append, ih]
    by_cases h : T < l <;> simp [h, List.count_cons] <;> omega

/-- Helper: row `i` of `lens_to_mask lens T` is the comparison vector of
`lens[i]` against `range T`. -/
theorem lens_to_mask_row (lens : List Nat) (T i : Nat) (hi : i < lens.length) :
    (lens_to_mask lens T).getD i [] =
      (List.range T).map (fun t => decide (t < lens.getD i 0)) := by
  unfold lens_to_mask
  rw [List.getD_eq_getElem?_getD, List.getElem?_map, List.getElem?_eq_getElem hi]
  rw [List.getD_eq_getElem?_getD, List.getElem?_eq_getElem hi]
  simp

/-- C6: `lens_to_mask(L, T)` returns a `(batch, T)` matrix with
`mask[i, t]` true iff `t < L[i]`; the number of true entries in row `i` is
`min(L[i], T)`; a row with `L[i] = 0` is all false and a row with
`L[i] >= T` is all true.  (The embedding is a pure function, so freedom from
side effects is by construction.) -/
theorem lens_to_mask_spec (lens : List Nat) (T i t : Nat)
    (hi : i < lens.length) (ht : t < T) :
    ((lens_to_mask lens T).getD i []).length = T
    ∧ ((lens_to_mask lens T).getD i []).getD t false = decide (t < lens.getD i 0)
    ∧ ((lens_to_mask lens T).getD i []).count true = min (lens.getD i 0) T
    ∧ (lens.getD i 0 = 0 → (lens_to_mask lens T).getD i [] = List.replicate T false)
    ∧ (T ≤ lens.getD i 0 → (lens_to_mask lens T).getD i [] = List.replicate T true) := by
  rw [lens_to_mask_row lens T i hi]
  refine ⟨by simp, ?_, count_true_range T (lens.getD i 0), ?_, ?_⟩
  · rw [List.getD_eq_getElem?_getD, List.getElem?_map, List.getElem?_range ht]
    simp
  · intro h0
    rw [h0]
    have hz : ∀ a ∈ List.range T, (decide (a < 0)) = false := by
      intro a _
      simp
    calc (List.range T).map (fun s => decide (s < 0))
        = (List.range T).map (fun _ => false) := List.map_congr_left hz
      _ = List.replicate T false := by simp
  · intro hT
    have ho : ∀ a ∈ List.range T, (decide (a < lens.getD i 0)) = true := by
      intro a ha
      rw [List.mem_range] at ha
      simp only [decide_eq_true_eq]
      omega
    calc (List.range T).map (fun s => decide (s < lens.getD i 0))
        = (List.range T).map (fun _ => true) := List.map_congr_left ho
      _ = List.replicate T true := by simp

/-- Witness for `lens_to_mask_spec` at `lens = [0, 2, 5]`, `T = 3`,
`i = 1`, `t = 2`. -/
theorem lens_to_mask_spec_witness :
    1 < ([0, 2, 5] : List Nat).length ∧ 2 < 3 ∧
    (((lens_to_mask [0, 2, 5] 3).getD 1 []).length = 3
    ∧ ((lens_to_mask [0, 2, 5] 3).getD 1 []).getD 2 false =
        decide (2 < ([0, 2, 5] : List Nat).getD 1 0)
    ∧ ((lens_to_mask [0, 2, 5] 3).getD 1 []).count true =
        min (([0, 2, 5] : List Nat).getD 1 0) 3
    ∧ (([0, 2, 5] : List Nat).getD 1 0 = 0 →
        (lens_to_mask [0, 2, 5] 3).getD 1 [] = List.replicate 3 false)
    ∧ (3 ≤ ([0, 2, 5] : List Nat).getD 1 0 →
        (lens_to_mask [0, 2, 5] 3).getD 1 [] = List.replicate 3 true)) :=
  ⟨by decide, by decide, lens_to_mask_spec [0, 2, 5] 3 1 2 (by decide) (by decide)⟩

/-- C8: stripping special tokens (removing every substring matching the
angle-bracket pattern) is idempotent: `strip(strip(x)) = strip(x)` for every
string `x`. -/
theorem strip_special_tokens_idempotent (x : String) :
    _strip_special_tokens (_strip_special_tokens x) = _strip_special_tokens x :=
  congrArg String.mk (stripChars_idem x.data)



/-- The Python `8 * ceil(vocab_size / 8)` equals the natural-number formula
`8 * ((v + 7) / 8)`. -/
theorem decoder_vocab_size_eq (v : Nat) :
    decoder_vocab_size v = 8 * ((v + 7) / 8) := by
  unfold decoder_vocab_size
  have ha : (v : ℚ) / 8 ≤ (((v + 7) / 8 : Nat) : ℚ) := by
    rw [div_le_iff₀ (by norm_num : (0 : ℚ) < 8)]
    have hv : v ≤ ((v + 7) / 8) * 8 := by omega
    exact_mod_cast hv
  have hb : Nat.ceil ((v : ℚ) / 8) ≤ (v + 7) / 8 := Nat.ceil_le.mpr ha
  have hc : (v : ℚ) ≤ 8 * (Nat.ceil ((v : ℚ) / 8) : ℚ) := by
    have h := Nat.le_ceil ((v : ℚ) / 8)
    linarith
  have hd : v ≤ 8 * Nat.ceil ((v : ℚ) / 8) := by exact_mod_cast hc
  omega

/-- C9: the decoder (and log-softmax head) vocabulary size
`8 * ceil(tokenizer.vocab_size / 8)` is the smallest multiple of 8 greater
than or equal to the tokenizer's vocabulary size. -/
theorem decoder_vocab_size_spec (v m : Nat) (h8 : m % 8 = 0) (hvm : v ≤ m) :
    decoder_vocab_size v = 8 * ((v + 7) / 8)
    ∧ decoder_vocab_size v % 8 = 0
    ∧ v ≤ decoder_vocab_size v
    ∧ decoder_vocab_size v ≤ m := by
  have he := decoder_vocab_size_eq v
  refine ⟨he, ?_, ?_, ?_⟩ <;> rw [he] <;> omega

/-- Witness for `decoder_vocab_size_spec` at `v = 100`, `m = 104`. -/
theorem decoder_vocab_size_spec_witness :
    104 % 8 = 0 ∧ 100 ≤ 104 ∧
    (decoder_vocab_size 100 = 8 * ((100 + 7) / 8)
    ∧ decoder_vocab_size 100 % 8 = 0
    ∧ 100 ≤ decoder_vocab_size 100
    ∧ decoder_vocab_size 100 ≤ 104) :=
  ⟨by decide, by decide, decoder_vocab_size_spec 100 104 (by decide) (by decide)⟩

/-- C10: `transcribe` (and its alias `translate`) called with `None` or an
empty path list returns the empty dict immediately — an output distinct from
every list of strings — with the model state untouched. -/
theorem transcribe_empty_paths (batches : List String → Nat → List (Except String (List String)))
    (m : ModelState) (paths : Option (List String)) (batch_size : Nat)
    (logprobs return_hypotheses : Bool)
    (h : paths = none ∨ paths = some []) :
    transcribe batches m paths batch_size logprobs return_hypotheses =
      (m, Except.ok TranscribeOutput.emptyDict)
    ∧ translate batches m paths batch_size logprobs return_hypotheses =
      (m, Except.ok TranscribeOutput.emptyDict)
    ∧ ∀ l : List String, TranscribeOutput.emptyDict ≠ TranscribeOutput.texts l := by
  rcases h with h | h <;> subst h <;>
    exact ⟨rfl, rfl, fun l hl => TranscribeOutput.noConfusion hl⟩

/-- Witness for `transcribe_empty_paths` at `paths = some []`. -/
theorem transcribe_empty_paths_witness :
    ((some ([] : List String) = none ∨ some ([] : List String) = some []) ∧
    (transcribe (fun _ _ => []) (ModelState.mk true (1/10) 16 false false 20)
        (some []) 4 false false =
      (ModelState.mk true (1/10) 16 false false 20, Except.ok TranscribeOutput.emptyDict)
    ∧ translate (fun _ _ => []) (ModelState.mk true (1/10) 16 false false 20)
        (some []) 4 false false =
      (ModelState.mk true (1/10) 16 false false 20, Except.ok TranscribeOutput.emptyDict)
    ∧ ∀ l : List String, TranscribeOutput.emptyDict ≠ TranscribeOutput.texts l)) :=
  ⟨Or.inr rfl,
   transcribe_empty_paths (fun _ _ => []) (ModelState.mk true (1/10) 16 false false 20)
     (some []) 4 false false (Or.inr rfl)⟩



/-- C3 counterexample: with an empty path list, `transcribe` called with both
`logprobs` and `return_hypotheses` true does not raise — the empty-input
early return precedes the flag check and yields the empty dict. -/
theorem transcribe_flags_counterexample :
    transcribe (fun _ _ => []) (ModelState.mk true (1/10) 16 false false 20)
        (some []) 4 true true =
      (ModelState.mk true (1/10) 16 false false 20, Except.ok TranscribeOutput.emptyDict)
    ∧ ∀ e : String,
        (Except.ok TranscribeOutput.emptyDict : Except String TranscribeOutput) ≠
          Except.error e :=
  ⟨rfl, fun _ h => Except.noConfusion h⟩

/-- C3 (amended): `forward` raises the mutual-exclusion ValueError exactly
when the raw-signal pair and the processed-signal pair are both supplied or
neither is supplied, before any processing (the result does not depend on the
preprocessor or the downstream pipeline); and for a non-empty path list,
`transcribe` with both flags true raises immediately with the model state
untouched.  (With a `None` or empty path list the empty-dict early return
precedes the flag check.) -/
theorem mutex_guards {σ π ρ : Type} (preprocess : σ × Nat → π × Nat)
    (pipeline : π × Nat → ρ)
    (input_signal : Option σ) (input_signal_length : Option Nat)
    (processed_signal : Option π) (processed_signal_length : Option Nat)
    (batches : List String → Nat → List (Except String (List String)))
    (m : ModelState) (paths : List String) (batch_size : Nat)
    (hpaths : paths ≠ []) :
    (forward preprocess pipeline input_signal input_signal_length
        processed_signal processed_signal_length = Except.error forwardMutexMsg
      ↔ (((input_signal.isSome && input_signal_length.isSome) = true
            ∧ (processed_signal.isSome && processed_signal_length.isSome) = true)
         ∨ ((input_signal.isSome && input_signal_length.isSome) = false
            ∧ (processed_signal.isSome && processed_signal_length.isSome) = false)))
    ∧ transcribe batches m (some paths) batch_size true true =
        (m, Except.error flagsMutexMsg) := by
  constructor
  · cases input_signal <;> cases input_signal_length <;>
      cases processed_signal <;> cases processed_signal_length <;>
      simp [forward]
  · have h0 : ¬(paths.length = 0) := by
      simpa [List.length_eq_zero] using hpaths
    simp [transcribe, h0]

/-- Witness for `mutex_guards`: one file, raw pair absent, processed pair
absent (the "neither supplied" case). -/
theorem mutex_guards_witness :
    (["a.wav"] : List String) ≠ []
    ∧ ((forward (fun p => p) (fun p : Nat × Nat => p.1)
          (none : Option Nat) none (none : Option Nat) none =
            Except.error forwardMutexMsg
        ↔ ((((none : Option Nat).isSome && (none : Option Nat).isSome) = true
              ∧ (((none : Option Nat).isSome && (none : Option Nat).isSome) = true))
           ∨ (((none : Option Nat).isSome && (none : Option Nat).isSome) = false
              ∧ (((none : Option Nat).isSome && (none : Option Nat).isSome) = false))))
      ∧ transcribe (fun _ _ => []) (ModelState.mk true (1/10) 16 false false 20)
          (some ["a.wav"]) 4 true true =
          (ModelState.mk true (1/10) 16 false false 20, Except.error flagsMutexMsg)) :=
  ⟨by decide,
   mutex_guards (fun p => p) (fun p : Nat × Nat => p.1) none none none none
     (fun _ _ => []) (ModelState.mk true (1/10) 16 false false 20)
     ["a.wav"] 4 (by decide)⟩

/-- C4 counterexample: a successful `transcribe` call on a model that was in
eval mode with an unfrozen encoder leaves the encoder frozen — the `finally`
block unfreezes only when the saved mode was training, so the pre-call freeze
state is not restored. -/
theorem transcribe_freeze_counterexample :
    (transcribe (fun _ _ => [Except.ok ["x"]])
        (ModelState.mk false (1/10) 16 false false 20)
        (some ["a.wav"]) 4 false false).1.encoder_frozen = true
    ∧ (ModelState.mk false (1/10) 16 false false 20).encoder_frozen = false
    ∧ (true : Bool) ≠ false :=
  ⟨rfl, rfl, by decide⟩

/-- C4 (amended): on every exit path of a non-empty-path `transcribe` call the
training-mode flag, the preprocessor augmentation parameters (`dither`,
`pad_to`) and the logging verbosity are restored to their pre-call values,
and an exception raised mid-loop still propagates to the caller after this
cleanup; the encoder/decoder freeze state, however, is not restored to its
pre-call value: after the call both are unfrozen when the model was training
pre-call and remain frozen otherwise. -/
theorem transcribe_cleanup (batches : List String → Nat → List (Except String (List String)))
    (m : ModelState) (paths : List String) (batch_size : Nat)
    (logprobs return_hypotheses : Bool)
    (hpaths : paths ≠ []) (hflags : (return_hypotheses && logprobs) = false) :
    (transcribe batches m (some paths) batch_size logprobs return_hypotheses).1 =
      ModelState.mk m.training m.dither m.pad_to (!m.training) (!m.training) m.verbosity
    ∧ ∀ e : String,
        runBatches return_hypotheses (batches paths batch_size) = Except.error e →
        (transcribe batches m (some paths) batch_size logprobs return_hypotheses).2 =
          Except.error e := by
  have h0 : ¬(paths.length = 0) := by
    simpa [List.length_eq_zero] using hpaths
  constructor
  · simp only [transcribe, h0, if_false, hflags, ite_false, if_neg]
    cases hm : m.training <;> simp [hm]
  · intro e herr
    simp only [transcribe, h0, if_false, hflags, ite_false, if_neg]
    rw [herr]
    rfl

/-- Witness for `transcribe_cleanup`: one file, a batch that raises. -/
theorem transcribe_cleanup_witness :
    (["a.wav"] : List String) ≠ []
    ∧ ((false : Bool) && false) = false
    ∧ ((transcribe (fun _ _ => [Except.error "boom"])
          (ModelState.mk true (1/10) 16 false false 20)
          (some ["a.wav"]) 4 false false).1 =
        ModelState.mk (ModelState.mk true (1/10) 16 false false 20).training
          (ModelState.mk true (1/10) 16 false false 20).dither
          (ModelState.mk true (1/10) 16 false false 20).pad_to
          (!(ModelState.mk true (1/10) 16 false false 20).training)
          (!(ModelState.mk true (1/10) 16 false false 20).training)
          (ModelState.mk true (1/10) 16 false false 20).verbosity
      ∧ ∀ e : String,
          runBatches false ((fun _ _ => [Except.error "boom"]) ["a.wav"] 4) =
            Except.error e →
          (transcribe (fun _ _ => [Except.error "boom"])
            (ModelState.mk true (1/10) 16 false false 20)
            (some ["a.wav"]) 4 false false).2 = Except.error e) :=
  ⟨by decide, by decide,
   transcribe_cleanup (fun _ _ => [Except.error "boom"])
     (ModelState.mk true (1/10) 16 false false 20) ["a.wav"] 4 false false
     (by decide) (by decide)⟩

/-- The transcription loop on all-successful batches returns the batch
outputs concatenated in order. -/
theorem runBatches_map_ok (outs : List (List String)) :
    runBatches false (outs.map Except.ok) = Except.ok outs.flatten := by
  induction outs with
  | nil => rfl
  | cons o os ih => simp [runBatches, ih]

/-- C5 counterexample: `transcribe` applies no special-token stripping (unlike
`validation_step`), so when the tokenizer's `ids_to_text` emits a special
token such as `<s>` the returned string contains an angle-bracket match:
stripping changes it. -/
theorem transcribe_no_strip_counterexample :
    (transcribe (fun _ _ => [Except.ok ["<s>hi", "ok"]])
        (ModelState.mk true (1/10) 16 false false 20)
        (some ["f1.wav", "f2.wav"]) 4 false false).2 =
      Except.ok (TranscribeOutput.texts ["<s>hi", "ok"])
    ∧ _strip_special_tokens ("<s>hi") ≠ "<s>hi" := by
  constructor
  · rfl
  · have hstrip : stripChars ('<' :: 's' :: '>' :: 'h' :: 'i' :: []) =
        'h' :: 'i' :: [] := by
      rw [stripChars_cons_eq, if_pos rfl, if_pos (by decide)]
      rw [show (List.dropWhile (fun x => x ≠ '>') ('s' :: '>' :: 'h' :: 'i' :: [])).tail =
            'h' :: 'i' :: [] from by decide]
      rw [stripChars_cons_eq, if_neg (by decide)]
      rw [stripChars_cons_eq, if_neg (by decide)]
      rw [show stripChars [] = [] from by simp [stripChars]]
    have h1 : _strip_special_tokens ("<s>hi") = "hi" := by
      show String.mk (stripChars ("<s>hi").data) = "hi"
      rw [show ("<s>hi").data = '<' :: 's' :: '>' :: 'h' :: 'i' :: [] from rfl, hstrip]
    rw [h1]
    decide

/-- C5 (amended): for a non-empty path list with both flags false,
`transcribe` returns the per-batch beam hypotheses concatenated in batch
order; when the dataloader's batches succeed and jointly produce one
hypothesis per input file (in input order, as the manifest preserves the
given order), the result is a list of exactly `paths.length` strings.  The
strings are the tokenizer's detokenizations with no special-token stripping
applied, so they may contain `<...>` substrings. -/
theorem transcribe_output_per_file
    (batches : List String → Nat → List (Except String (List String)))
    (m : ModelState) (paths : List String) (batch_size : Nat)
    (outs : List (List String))
    (hpaths : paths ≠ [])
    (hbatches : batches paths batch_size = outs.map Except.ok)
    (hcover : outs.flatten.length = paths.length) :
    (transcribe batches m (some paths) batch_size false false).2 =
      Except.ok (TranscribeOutput.texts outs.flatten)
    ∧ outs.flatten.length = paths.length := by
  have h0 : ¬(paths.length = 0) := by
    simpa [List.length_eq_zero] using hpaths
  refine ⟨?_, hcover⟩
  simp only [transcribe, h0, if_false, ite_false, if_neg, Bool.and_false]
  rw [hbatches, runBatches_map_ok]
  rfl

/-- Witness for `transcribe_output_per_file`: 2 audio files, batch size 4,
one successful batch of 2 hypotheses. -/
theorem transcribe_output_per_file_witness :
    (["f1.wav", "f2.wav"] : List String) ≠ []
    ∧ (fun (_ : List String) (_ : Nat) => [Except.ok (ε := String) ["hello", "there"]])
        ["f1.wav", "f2.wav"] 4 = ([["hello", "there"]] : List (List String)).map Except.ok
    ∧ ([["hello", "there"]] : List (List String)).flatten.length =
        (["f1.wav", "f2.wav"] : List String).length
    ∧ ((transcribe (fun _ _ => [Except.ok ["hello", "there"]])
          (ModelState.mk true (1/10) 16 false false 20)
          (some ["f1.wav", "f2.wav"]) 4 false false).2 =
        Except.ok (TranscribeOutput.texts ([["hello", "there"]] : List (List String)).flatten)
      ∧ ([["hello", "there"]] : List (List String)).flatten.length =
          (["f1.wav", "f2.wav"] : List String).length) :=
  ⟨by decide, rfl, rfl,
   transcribe_output_per_file (fun _ _ => [Except.ok ["hello", "there"]])
     (ModelState.mk true (1/10) 16 false false 20) ["f1.wav", "f2.wav"] 4
     [["hello", "there"]] (by decide) rfl rfl⟩

/-- C7: both the training loss (`compute_audio_loss`) and the validation loss
(`validation_step_loss`) are computed from decoder inputs
`transcript[:, :-1]` and labels `transcript[:, 1:]`: per transcript row of
length `n` the inputs are positions `0..n-2`, the labels positions `1..n-1`,
and the label at position `j` is the transcript token at position `j+1`
predicted from the decoder input at position `j` (the transcript token at
position `j`). -/
theorem teacher_forcing_shift {α LP : Type}
    (forwardFn : List (List ℚ) → List Nat → List (List α) → List Nat → LP)
    (transf_loss : LP → List (List α) → ℚ)
    (signal : List (List ℚ)) (signal_len : List Nat)
    (transcript : List (List α)) (transcript_len : List Nat)
    (i j : Nat) (r : List α) (hr : transcript[i]? = some r) (hj : j + 1 < r.length) :
    compute_audio_loss forwardFn transf_loss
        (some (signal, signal_len, transcript, transcript_len)) =
      transf_loss (forwardFn signal signal_len (transcript.map List.dropLast) transcript_len)
        (transcript.map (List.drop 1))
    ∧ validation_step_loss forwardFn transf_loss
        (signal, signal_len, transcript, transcript_len) =
      transf_loss (forwardFn signal signal_len (transcript.map List.dropLast) transcript_len)
        (transcript.map (List.drop 1))
    ∧ (transcript.map List.dropLast)[i]? = some r.dropLast
    ∧ (transcript.map (List.drop 1))[i]? = some (r.drop 1)
    ∧ r.dropLast.length = r.length - 1
    ∧ (r.drop 1).length = r.length - 1
    ∧ r.dropLast[j]? = r[j]?
    ∧ (r.drop 1)[j]? = r[j + 1]? := by
  refine ⟨rfl, rfl, ?_, ?_, List.length_dropLast r, List.length_drop 1 r, ?_, ?_⟩
  · simp [List.getElem?_map, hr]
  · simp [List.getElem?_map, hr]
  · rw [List.getElem?_dropLast]
    exact if_pos (by omega)
  · rw [List.getElem?_drop, Nat.add_comm]

/-- Witness for `teacher_forcing_shift` on the transcript row `[10, 20, 30]`
at `i = 0`, `j = 1`. -/
theorem teacher_forcing_shift_witness :
    ([[10, 20, 30]] : List (List Nat))[0]? = some [10, 20, 30]
    ∧ 1 + 1 < ([10, 20, 30] : List Nat).length
    ∧ (compute_audio_loss (fun _ _ t _ => t) (fun _ _ => 0)
          (some ([], [], ([[10, 20, 30]] : List (List Nat)), [])) =
        (fun _ _ => (0 : ℚ))
          ((fun (_ : List (List ℚ)) (_ : List Nat) (t : List (List Nat)) (_ : List Nat) => t)
            [] [] (([[10, 20, 30]] : List (List Nat)).map List.dropLast) [])
          (([[10, 20, 30]] : List (List Nat)).map (List.drop 1))
      ∧ validation_step_loss (fun _ _ t _ => t) (fun _ _ => 0)
          ([], [], ([[10, 20, 30]] : List (List Nat)), []) =
        (fun _ _ => (0 : ℚ))
          ((fun (_ : List (List ℚ)) (_ : List Nat) (t : List (List Nat)) (_ : List Nat) => t)
            [] [] (([[10, 20, 30]] : List (List Nat)).map List.dropLast) [])
          (([[10, 20, 30]] : List (List Nat)).map (List.drop 1))
      ∧ (([[10, 20, 30]] : List (List Nat)).map List.dropLast)[0]? =
          some ([10, 20, 30] : List Nat).dropLast
      ∧ (([[10, 20, 30]] : List (List Nat)).map (List.drop 1))[0]? =
          some (([10, 20, 30] : List Nat).drop 1)
      ∧ ([10, 20, 30] : List Nat).dropLast.length = ([10, 20, 30] : List Nat).length - 1
      ∧ (([10, 20, 30] : List Nat).drop 1).length = ([10, 20, 30] : List Nat).length - 1
      ∧ ([10, 20, 30] : List Nat).dropLast[1]? = ([10, 20, 30] : List Nat)[1]?
      ∧ (([10, 20, 30] : List Nat).drop 1)[1]? = ([10, 20, 30] : List Nat)[1 + 1]?) :=
  ⟨rfl, by decide,
   teacher_forcing_shift (fun _ _ t _ => t) (fun _ _ => 0) [] []
     [[10, 20, 30]] [] 0 1 [10, 20, 30] rfl (by decide)⟩



/-- With one entry per rank, the gather step produces each rank's filtered
pairs in rank order in both the distributed and the single-worker branch. -/
theorem gatheredPairs_eq (world_size : Nat) (workers : List (List String × List String))
    (hws : workers.length = world_size) (hpos : 0 < world_size) :
    gatheredPairs world_size workers =
      workers.map (fun w => filteredPairs w.1 w.2) := by
  unfold gatheredPairs
  by_cases h : world_size > 1
  · rw [if_pos h]
  · rw [if_neg h]
    have h1 : world_size = 1 := by omega
    subst h1
    cases workers with
    | nil => simp at hws
    | cons w ws =>
      cases ws with
      | nil => simp
      | cons w2 ws2 => simp at hws

/-- C1: at validation/test epoch end, rank 0 concatenates all workers' pairs
in worker-rank order and reports corpus BLEU scaled by the worker count and
corpus WER equal to (total edit distance over whitespace-tokenized words)
divided by (total reference word count), scaled by the worker count; every
other rank reports exactly zero for both metrics. -/
theorem epoch_end_metrics (world_size : Nat)
    (workers : List (List String × List String))
    (corpus_bleu : List String → List String → ℚ) (r : Nat)
    (hws : workers.length = world_size) (hpos : 0 < world_size) (hr : r ≠ 0)
    (_hN : 0 < ((workers.map (fun w => filteredPairs w.1 w.2)).flatten.map
        (fun p => (pySplit p.2).length)).sum) :
    multi_validation_epoch_end world_size 0 workers corpus_bleu =
      (corpus_bleu
          ((workers.map (fun w => filteredPairs w.1 w.2)).flatten.map Prod.fst)
          ((workers.map (fun w => filteredPairs w.1 w.2)).flatten.map Prod.snd)
        * (world_size : ℚ),
       ((((workers.map (fun w => filteredPairs w.1 w.2)).flatten.map
            (fun p => editDist (pySplit p.1) (pySplit p.2))).sum : ℚ)
        / (((workers.map (fun w => filteredPairs w.1 w.2)).flatten.map
            (fun p => (pySplit p.2).length)).sum : ℚ)) * (world_size : ℚ))
    ∧ multi_validation_epoch_end world_size r workers corpus_bleu = (0, 0) := by
  constructor
  · simp only [multi_validation_epoch_end]
    rw [gatheredPairs_eq world_size workers hws hpos, if_pos trivial]
    simp only [← List.map_flatten, List.zip_map', Prod.mk.eta, List.map_id']
    rw [Prod.mk.injEq]
    refine ⟨rfl, ?_⟩
    simp only [List.map_map]
    rw [one_mul, div_mul_eq_mul_div]
    rfl
  · simp [multi_validation_epoch_end, hr]

/-- Witness for `epoch_end_metrics`: two workers, one pair each. -/
theorem epoch_end_metrics_witness :
    ([(["x"], ["a"]), (["y"], ["b"])] : List (List String × List String)).length = 2
    ∧ 0 < 2 ∧ (1 : Nat) ≠ 0
    ∧ 0 < ((([(["x"], ["a"]), (["y"], ["b"])] : List (List String × List String)).map
          (fun w => filteredPairs w.1 w.2)).flatten.map
            (fun p => (pySplit p.2).length)).sum
    ∧ (multi_validation_epoch_end 2 0 [(["x"], ["a"]), (["y"], ["b"])]
          (fun ts _ => (ts.length : ℚ)) =
        ((fun (ts : List String) (_ : List String) => (ts.length : ℚ))
            ((([(["x"], ["a"]), (["y"], ["b"])] : List (List String × List String)).map
              (fun w => filteredPairs w.1 w.2)).flatten.map Prod.fst)
            ((([(["x"], ["a"]), (["y"], ["b"])] : List (List String × List String)).map
              (fun w => filteredPairs w.1 w.2)).flatten.map Prod.snd)
          * ((2 : Nat) : ℚ),
         ((((([(["x"], ["a"]), (["y"], ["b"])] : List (List String × List String)).map
              (fun w => filteredPairs w.1 w.2)).flatten.map
                (fun p => editDist (pySplit p.1) (pySplit p.2))).sum : ℚ)
          / (((([(["x"], ["a"]), (["y"], ["b"])] : List (List String × List String)).map
              (fun w => filteredPairs w.1 w.2)).flatten.map
                (fun p => (pySplit p.2).length)).sum : ℚ)) * ((2 : Nat) : ℚ))
      ∧ multi_validation_epoch_end 2 1 [(["x"], ["a"]), (["y"], ["b"])]
          (fun ts _ => (ts.length : ℚ)) = (0, 0)) :=
  ⟨rfl, by decide, by decide, by decide,
   epoch_end_metrics 2 [(["x"], ["a"]), (["y"], ["b"])]
     (fun ts _ => (ts.length : ℚ)) 1 rfl (by decide) (by decide) (by decide)⟩

/-- C2: every pair that reaches the BLEU/WER computation has a ground truth
that is non-empty after trimming whitespace, in both the distributed and the
single-worker branch; on the spec's scenario (ground truths
`["", "hello world", "  "]`, hypotheses `["a", "hello there", "b"]`) only
the pair `("hello there", "hello world")` survives, in either branch. -/
theorem aggregator_drops_empty_refs (world_size : Nat)
    (workers : List (List String × List String)) (p : String × String)
    (hp : p ∈ (gatheredPairs world_size workers).flatten) :
    pyStrip p.2 ≠ ""
    ∧ gatheredPairs 1 [(["a", "hello there", "b"], ["", "hello world", "  "])] =
        [[("hello there", "hello world")]]
    ∧ gatheredPairs 2 [(["a", "hello there", "b"], ["", "hello world", "  "]),
        (["a", "hello there", "b"], ["", "hello world", "  "])] =
        [[("hello there", "hello world")], [("hello there", "hello world")]] := by
  refine ⟨?_, by decide, by decide⟩
  rcases List.mem_flatten.mp hp with ⟨L, hL, hpL⟩
  unfold gatheredPairs at hL
  by_cases h : world_size > 1
  · rw [if_pos h] at hL
    rcases List.mem_map.mp hL with ⟨w, _, rfl⟩
    have hcond := (List.mem_filter.mp hpL).2
    simpa using hcond
  · rw [if_neg h] at hL
    cases world_size with
    | zero => simp at hL
    | succ n =>
      rw [List.replicate_succ, List.set_cons_zero] at hL
      rcases List.mem_cons.mp hL with heq | hmem
      · subst heq
        have hcond := (List.mem_filter.mp hpL).2
        simpa using hcond
      · have hnil : L = [] := List.eq_of_mem_replicate hmem
        subst hnil
        simp at hpL

/-- Witness for `aggregator_drops_empty_refs` at the scenario input. -/
theorem aggregator_drops_empty_refs_witness :
    (("hello there", "hello world") : String × String) ∈
      (gatheredPairs 1 [(["a", "hello there", "b"], ["", "hello world", "  "])]).flatten
    ∧ (pyStrip (("hello there", "hello world") : String × String).2 ≠ ""
      ∧ gatheredPairs 1 [(["a", "hello there", "b"], ["", "hello world", "  "])] =
          [[("hello there", "hello world")]]
      ∧ gatheredPairs 2 [(["a", "hello there", "b"], ["", "hello world", "  "]),
          (["a", "hello there", "b"], ["", "hello world", "  "])] =
          [[("hello there", "hello world")], [("hello there", "hello world")]]) :=
  ⟨by decide,
   aggregator_drops_empty_refs 1
     [(["a", "hello there", "b"], ["", "hello world", "  "])]
     ("hello there", "hello world") (by decide)⟩


end NeMoTransformerBPE
